import Mathlib

/-!
Verification of the storage backends of `utils/storage_backend.py`
(conversation-thread key/value store with TTL).

The module provides two interchangeable backends:

* `InMemoryStorage` — a process-local dict `key ↦ (value, expires_at)`;
* `FileStorage` — one JSON file per key under a storage directory, each file
  holding `{value, expires_at, created_at, last_accessed_at?}`;

plus a singleton selector `get_storage_backend` driven by the
`STORAGE_BACKEND` environment variable.

The embedding below models time as `Nat` (epoch seconds; the Python code uses
`time.time()` floats, but every comparison in the code is an order comparison,
preserved by the restriction to naturals).  The in-memory dict and the
filesystem are modelled as association lists; `set` replaces any previous
binding, `find` returns the binding, `erase` removes it — the observable
behaviour of a Python dict / of a directory of files.  I/O failure
(`OSError`) is modelled by explicit `readFails` / `writeFails` flags: the
Python `except` structure determines what each function does when the flagged
operation raises.  Module-level configuration (`CONVERSATION_SLIDING_TTL`,
`CONVERSATION_TIMEOUT_HOURS`) is passed explicitly as a `Config`.
-/

deriving instance DecidableEq for Except

namespace ZenStorage

/-- Process-wide configuration read from the environment:
`CONVERSATION_SLIDING_TTL` and `CONVERSATION_TIMEOUT_HOURS` (default 3). -/
structure Config where
  slidingTTL : Bool
  timeoutHours : Nat
deriving DecidableEq

/-! ### Character-level string helpers

Python's `str.replace(old, new)` with a one-character `old` and `new`
substitutes every occurrence of that character, i.e. acts pointwise on the
characters; `str.lower()` on the ASCII range maps `A..Z` to `a..z`;
`fnmatch`-style `*.json` matching of `Path.glob` checks the `.json` suffix.
Lean's built-in `String.replace`, `String.toLower` and `String.endsWith` do
not reduce in the kernel, so equivalent character-list versions are used. -/

/-- Pointwise character substitution: Python `s.replace(a, b)` for
one-character `a`, `b`. -/
def replaceChar (s : String) (a b : Char) : String :=
  ⟨s.data.map (fun c => if c = a then b else c)⟩

/-- Suffix test: Python `fnmatch(name, "*.json")` as used by
`Path.glob("*.json")`. -/
def strEndsWith (s pat : String) : Bool :=
  decide (s.data.reverse.take pat.data.length = pat.data.reverse)

/-- ASCII case folding of one character: Python `str.lower()` restricted to
the ASCII range (the configuration strings compared against are ASCII). -/
def charToLower (c : Char) : Char :=
  if 65 ≤ c.toNat ∧ c.toNat ≤ 90 then Char.ofNat (c.toNat + 32) else c

/-- Python `s.lower()` (ASCII range). -/
def strToLower (s : String) : String :=
  ⟨s.data.map charToLower⟩

/-! ### InMemoryStorage

`self._store : dict[str, tuple[str, float]]` maps a key to
`(value, expires_at)`.  Modelled as an association list with dict update
semantics. -/

/-- The in-memory store `self._store`: key ↦ (value, expires_at). -/
abbrev MemStore := List (String × String × Nat)

/-- Dict lookup `key in self._store` / `self._store[key]`. -/
def memFind : MemStore → String → Option (String × Nat)
  | [], _ => none
  | (k, ve) :: t, key => if k = key then some ve else memFind t key

/-- Dict deletion `del self._store[key]`. -/
def memErase : MemStore → String → MemStore
  | [], _ => []
  | (k, ve) :: t, key => if k = key then memErase t key else (k, ve) :: memErase t key

/-- Dict update `self._store[key] = ve` (replaces any previous binding). -/
def memSet (s : MemStore) (key : String) (ve : String × Nat) : MemStore :=
  (key, ve) :: memErase s key

/-- `InMemoryStorage.set_with_ttl`: store `(value, now + ttl_seconds)`. -/
def memSetWithTTL (now : Nat) (s : MemStore) (key : String) (ttl_seconds : Nat)
    (value : String) : MemStore :=
  let expires_at := now + ttl_seconds
  memSet s key (value, expires_at)

/-- `InMemoryStorage.get`: return the value if present and unexpired,
extending the expiry to `now + timeout_hours*3600` when sliding TTL is
enabled; delete the entry and return `none` when expired.  Returns the
result together with the store after the call. -/
def memGet (cfg : Config) (now : Nat) (s : MemStore) (key : String) :
    Option String × MemStore :=
  match memFind s key with
  | some (value, expires_at) =>
    if now < expires_at then
      if cfg.slidingTTL then
        let ttl_seconds := cfg.timeoutHours * 3600
        let new_expires_at := now + ttl_seconds
        (some value, memSet s key (value, new_expires_at))
      else
        (some value, s)
    else
      (none, memErase s key)
  | none => (none, s)

/-- `InMemoryStorage._cleanup_expired`: delete every entry with
`expires_at < current_time` (strict, as in the list comprehension
`exp < current_time`). -/
def memCleanupExpired (now : Nat) : MemStore → MemStore
  | [] => []
  | (k, v, exp) :: t =>
    if exp < now then memCleanupExpired now t
    else (k, v, exp) :: memCleanupExpired now t

/-! ### FileStorage

One JSON file per key.  A file on disk either fails to decode
(`json.load` raises `JSONDecodeError`), or decodes to one of the JSON
values `null`, a non-object (array / number / string / bool), or an
object.  Of an object the code only ever reads the fields `value`,
`expires_at`, `created_at`, `last_accessed_at` with `dict.get`, each
possibly missing; whether the object carries any further fields still
matters for its Python truthiness (an empty dict is falsy), so that is
kept as a flag. -/

/-- Decoded contents of a key's backing file:
* `corrupt` — the bytes fail to parse, `json.load` raises `JSONDecodeError`;
* `null` — the file holds JSON `null`, `json.load` returns `None`;
* `nonObject truthy` — valid JSON that is neither `null` nor an object
  (array, number, string, bool); `truthy` is its Python truthiness
  (e.g. `[1]`, `123` are truthy; `[]`, `0`, `""`, `false` are falsy);
* `record …` — a JSON object: the four fields the code reads (each
  `none` when absent or set to `null`), plus `extraFields`, true when the
  object carries any further key (so that object truthiness — non-emptiness —
  is determined). -/
inductive FileData where
  | corrupt : FileData
  | null : FileData
  | nonObject (truthy : Bool) : FileData
  | record (value : Option String) (expires_at created_at last_accessed_at : Option Nat)
      (extraFields : Bool) : FileData
deriving DecidableEq

/-- The storage directory's files: path ↦ decoded contents. -/
abbrev FS := List (String × FileData)

/-- Filesystem lookup (does the path exist, and with what contents). -/
def fsFind : FS → String → Option FileData
  | [], _ => none
  | (p, d) :: t, path => if p = path then some d else fsFind t path

/-- `Path.unlink` / `FileStorage._safe_remove_file`: remove the path. -/
def fsErase : FS → String → FS
  | [], _ => []
  | (p, d) :: t, path => if p = path then fsErase t path else (p, d) :: fsErase t path

/-- Whole-file overwrite: the path now holds exactly `d`. -/
def fsSet (fs : FS) (path : String) (d : FileData) : FS :=
  (path, d) :: fsErase fs path

/-- `FileStorage._get_file_path`: sanitize the key
(`key.replace("/", "_").replace(":", "_")`) and place it under the storage
directory with a `.json` suffix. -/
def fileStorageGetFilePath (storageDir key : String) : String :=
  let safe_key := replaceChar (replaceChar key '/' '_') ':' '_'
  storageDir ++ "/" ++ safe_key ++ ".json"

/-- `FileStorage.set_with_ttl`: serialize exactly
`{value, expires_at = now + ttl, created_at = now}` (so `last_accessed_at`
is absent and there are no further fields) and write it through
`_write_with_lock`, which re-raises `OSError` (modelled by `writeFails`:
when true the write raises and the error propagates to the caller). -/
def fileSetWithTTL (now : Nat) (writeFails : Bool) (fs : FS)
    (storageDir key : String) (ttl_seconds : Nat) (value : String) :
    Except Unit FS :=
  let expires_at := now + ttl_seconds
  let data := FileData.record (some value) (some expires_at) (some now) none false
  let file_path := fileStorageGetFilePath storageDir key
  if writeFails then .error () else .ok (fsSet fs file_path data)

/-- `FileStorage.get`.  The first component is `.ok r` when the call returns
`r` (`none` = absent) and `.error ()` when an exception escapes `get`; the
second is the filesystem after the call.
* missing file → returns `none`;
* `_read_with_lock` failure (`OSError`, modelled by `readFails`, or
  `JSONDecodeError`, modelled by `.corrupt`) removes the file and yields
  `None`, so `get` hits `if data is None` and returns `none`;
* the file decodes to JSON `null`: `_read_with_lock` returns `None` without
  removing anything, so `get` again returns `none` — the file is kept;
* the file decodes to a non-object: `data.get("expires_at", 0)` raises
  `AttributeError`, which the outer
  `except (json.JSONDecodeError, KeyError, OSError)` does not catch — the
  exception escapes `get` and the file is kept;
* an object, unexpired (`now < data.get("expires_at", 0)`): with sliding TTL
  the file is rewritten with `expires_at = now + timeout_hours*3600` and
  `last_accessed_at = now`, all other contents preserved — an `OSError` from
  that rewrite is caught by the outer `except`, which removes the file and
  returns `none` (`writeFails`); the returned result is `data.get("value")`;
* an object, expired: remove the file, return `none`. -/
def fileGet (cfg : Config) (now : Nat) (readFails writeFails : Bool) (fs : FS)
    (storageDir key : String) : Except Unit (Option String) × FS :=
  let file_path := fileStorageGetFilePath storageDir key
  match fsFind fs file_path with
  | none => (.ok none, fs)
  | some fdata =>
    if readFails then (.ok none, fsErase fs file_path)
    else
      match fdata with
      | .corrupt => (.ok none, fsErase fs file_path)
      | .null => (.ok none, fs)
      | .nonObject _ => (.error (), fs)
      | .record value expires_at created_at _ extra =>
        if now < expires_at.getD 0 then
          if cfg.slidingTTL then
            let ttl_seconds := cfg.timeoutHours * 3600
            let new_expires_at := now + ttl_seconds
            let newData :=
              FileData.record value (some new_expires_at) created_at (some now) extra
            if writeFails then (.ok none, fsErase fs file_path)
            else (.ok value, fsSet fs file_path newData)
          else (.ok value, fs)
        else
          (.ok none, fsErase fs file_path)

/-- Keep-predicate of the sweep.  Per scanned file the code runs
`data = _read_with_lock(path)` and then
`if data and current_time >= data.get("expires_at", 0): remove`, with
`except Exception: remove` around it:
* `corrupt` — `_read_with_lock` itself removes the file (net effect: gone);
* `null` — the read returns `None`, which is falsy, so nothing happens and
  the file survives;
* a falsy non-object (`[]`, `0`, `""`, `false`) — `data and …`
  short-circuits, the file survives;
* a truthy non-object — `data.get` raises `AttributeError`, caught by
  `except Exception`, which removes the file;
* an object — falsy (empty, no fields at all) survives; truthy is removed
  exactly when `current_time >= data.get("expires_at", 0)`. -/
def fileKeep (now : Nat) : FileData → Bool
  | .corrupt => false
  | .null => true
  | .nonObject truthy => !truthy
  | .record value expires_at created_at last_accessed_at extra =>
    if value.isSome || expires_at.isSome || created_at.isSome
        || last_accessed_at.isSome || extra
    then decide (now < expires_at.getD 0)
    else true

/-- `FileStorage._cleanup_expired`: scan every `*.json` file in the storage
directory, removing those that are expired or corrupt; other paths are not
touched by the `glob`. -/
def fileCleanupExpired (now : Nat) : FS → FS
  | [] => []
  | (p, d) :: t =>
    if strEndsWith p ".json" then
      if fileKeep now d then (p, d) :: fileCleanupExpired now t
      else fileCleanupExpired now t
    else (p, d) :: fileCleanupExpired now t

/-! ### Backend selection (`get_storage_backend`) -/

/-- Which backend class the selector instantiates. -/
inductive Backend where
  | memory : Backend
  | file : Backend
deriving DecidableEq

/-- The branch of `get_storage_backend` that picks the class from
`os.getenv("STORAGE_BACKEND", "file").lower()`: `"memory"` → in-memory,
`"file"` → file, anything else → file (with a warning, not an error). -/
def selectBackend (envVal : Option String) : Backend :=
  let backend_type := strToLower (envVal.getD "file")
  if backend_type = "memory" then .memory
  else if backend_type = "file" then .file
  else .file

/-- `get_storage_backend` with the `_storage_instance` singleton made
explicit: if an instance is cached it is returned unchanged; otherwise one is
created from the environment and cached.  Returns (result, new cache). -/
def getStorageBackend (cached : Option Backend) (envVal : Option String) :
    Backend × Option Backend :=
  match cached with
  | some inst => (inst, some inst)
  | none =>
    let inst := selectBackend envVal
    (inst, some inst)

/-! ### Helper lemmas -/

theorem memFind_memErase (s : MemStore) (k q : String) :
    memFind (memErase s k) q = if q = k then none else memFind s q := by
  induction s with
  | nil => simp [memErase, memFind]
  | cons hd t ih =>
    obtain ⟨k', ve⟩ := hd
    by_cases h1 : k' = k <;> by_cases h2 : k' = q <;>
      simp [memErase, memFind, h1, h2, ih] <;> simp_all [memFind]

theorem memFind_memSet_self (s : MemStore) (k : String) (ve : String × Nat) :
    memFind (memSet s k ve) k = some ve := by
  simp [memSet, memFind]

theorem fsFind_fsErase (fs : FS) (p q : String) :
    fsFind (fsErase fs p) q = if q = p then none else fsFind fs q := by
  induction fs with
  | nil => simp [fsErase, fsFind]
  | cons hd t ih =>
    obtain ⟨p', d⟩ := hd
    by_cases h1 : p' = p <;> by_cases h2 : p' = q <;>
      simp [fsErase, fsFind, h1, h2, ih] <;> simp_all [fsFind]

theorem fsFind_fsSet_self (fs : FS) (p : String) (d : FileData) :
    fsFind (fsSet fs p d) p = some d := by
  simp [fsSet, fsFind]

theorem memCleanup_not_mem (now : Nat) (s : MemStore) (k v : String) (e : Nat)
    (he : e < now) : (k, v, e) ∉ memCleanupExpired now s := by
  induction s with
  | nil => simp [memCleanupExpired]
  | cons hd t ih =>
    obtain ⟨k', v', e'⟩ := hd
    by_cases h : e' < now
    · simpa [memCleanupExpired, h] using ih
    · simp only [memCleanupExpired, if_neg h, List.mem_cons]
      rintro (heq | hmem)
      · exact h (by injection heq with h1 h2; injection h2 with h3 h4; omega)
      · exact ih hmem

theorem memFind_memCleanup (now : Nat) (s : MemStore) (k v : String) (e : Nat)
    (hf : memFind s k = some (v, e)) (he : ¬ e < now) :
    memFind (memCleanupExpired now s) k = some (v, e) := by
  induction s with
  | nil => simp [memFind] at hf
  | cons hd t ih =>
    obtain ⟨k', v', e'⟩ := hd
    by_cases hk : k' = k
    · subst hk
      simp only [memFind, if_pos rfl] at hf
      obtain ⟨h1, h2⟩ : v' = v ∧ e' = e := by
        injection hf with h; injection h with h1 h2; exact ⟨h1, h2⟩
      subst h1; subst h2
      simp [memCleanupExpired, if_neg he, memFind]
    · simp only [memFind, if_neg hk] at hf
      by_cases h : e' < now
      · simpa [memCleanupExpired, h] using ih hf
      · simpa [memCleanupExpired, if_neg h, memFind, hk] using ih hf

theorem fileCleanup_not_mem (now : Nat) (fs : FS) (p : String) (d : FileData)
    (hj : strEndsWith p ".json" = true) (hk : fileKeep now d = false) :
    (p, d) ∉ fileCleanupExpired now fs := by
  induction fs with
  | nil => simp [fileCleanupExpired]
  | cons hd t ih =>
    obtain ⟨p', d'⟩ := hd
    by_cases h1 : strEndsWith p' ".json" = true
    · by_cases h2 : fileKeep now d' = true
      · simp only [fileCleanupExpired, if_pos h1, if_pos h2, List.mem_cons]
        rintro (heq | hmem)
        · injection heq with e1 e2
          subst e1; subst e2
          rw [hk] at h2; exact Bool.false_ne_true h2
        · exact ih hmem
      · simpa [fileCleanupExpired, h1, h2] using ih
    · simp only [fileCleanupExpired, if_neg h1, List.mem_cons]
      rintro (heq | hmem)
      · injection heq with e1 e2
        subst e1; exact h1 hj
      · exact ih hmem

theorem fsFind_fileCleanup (now : Nat) (fs : FS) (p : String) (d : FileData)
    (hf : fsFind fs p = some d) (hk : fileKeep now d = true) :
    fsFind (fileCleanupExpired now fs) p = some d := by
  induction fs with
  | nil => simp [fsFind] at hf
  | cons hd t ih =>
    obtain ⟨p', d'⟩ := hd
    by_cases hp : p' = p
    · subst hp
      simp only [fsFind, if_pos rfl] at hf
      injection hf with h; subst h
      by_cases h2 : strEndsWith p' ".json" = true
      · simp [fileCleanupExpired, h2, hk, fsFind]
      · simp [fileCleanupExpired, h2, fsFind]
    · simp only [fsFind, if_neg hp] at hf
      by_cases h1 : strEndsWith p' ".json" = true
      · by_cases h2 : fileKeep now d' = true
        · simpa [fileCleanupExpired, h1, h2, fsFind, hp] using ih hf
        · simpa [fileCleanupExpired, h1, h2] using ih hf
      · simpa [fileCleanupExpired, h1, fsFind, hp] using ih hf

/-! ### Claims -/

/-- C1: for every key and both backends, `get` returns the stored value iff
an entry for the key exists and the current time is strictly below its
expiry; for every `ttl > 0` a `get` immediately after `set_with_ttl` returns
the value, and a `get` at or after the expiry returns absent. -/
theorem C1_get_visibility (cfg : Config) (now ttl : Nat) (s : MemStore) (fs : FS)
    (dir key v : String) (httl : 0 < ttl) :
    ((memGet cfg now s key).1 = some v ↔
      ∃ e, memFind s key = some (v, e) ∧ now < e)
    ∧ ((fileGet cfg now false false fs dir key).1 = .ok (some v) ↔
      ∃ e c l x, fsFind fs (fileStorageGetFilePath dir key)
          = some (.record (some v) e c l x) ∧ now < e.getD 0)
    ∧ (memGet cfg now (memSetWithTTL now s key ttl v) key).1 = some v
    ∧ (∀ fs', fileSetWithTTL now false fs dir key ttl v = .ok fs' →
        (fileGet cfg now false false fs' dir key).1 = .ok (some v))
    ∧ (∀ e now', memFind s key = some (v, e) → e ≤ now' →
        (memGet cfg now' s key).1 = none)
    ∧ (∀ e c l x now',
        fsFind fs (fileStorageGetFilePath dir key)
          = some (.record (some v) (some e) c l x) →
        e ≤ now' → (fileGet cfg now' false false fs dir key).1 = .ok none) := by
  refine ⟨?_, ?_, ?_, ?_, ?_, ?_⟩
  · cases hm : memFind s key with
    | none => simp [memGet, hm]
    | some ve =>
      obtain ⟨val, e⟩ := ve
      by_cases hne : now < e
      · cases hs : cfg.slidingTTL <;>
          · simp [memGet, hm, hne, hs]
            constructor
            · intro h; exact ⟨e, ⟨h, rfl⟩, hne⟩
            · rintro ⟨e1, ⟨h, he1⟩, h2⟩; exact h
      · simp [memGet, hm, hne]
        intro h1; omega
  · cases hm : fsFind fs (fileStorageGetFilePath dir key) with
    | none => simp [fileGet, hm]
    | some fd =>
      cases fd with
      | corrupt => simp [fileGet, hm]
      | null => simp [fileGet, hm]
      | nonObject t => simp [fileGet, hm]
      | record val eo c l x =>
        by_cases hne : now < eo.getD 0
        · cases hs : cfg.slidingTTL <;>
            · simp [fileGet, hm, hne, hs]
              constructor
              · intro h; exact ⟨eo, ⟨h, rfl⟩, hne⟩
              · rintro ⟨e1, ⟨h, he1⟩, h2⟩; exact h
        · simp [fileGet, hm, hne]
          intro h1; omega
  · have h : now < now + ttl := by omega
    cases hs : cfg.slidingTTL <;>
      simp [memGet, memSetWithTTL, memFind_memSet_self, h, hs]
  · intro fs' hok
    simp only [fileSetWithTTL, Bool.false_eq_true, if_false, ite_false] at hok
    injection hok with hfs
    subst hfs
    have h : now < now + ttl := by omega
    cases hs : cfg.slidingTTL <;>
      simp [fileGet, fsFind_fsSet_self, h, hs]
  · intro e now' hm hle
    have hne : ¬ now' < e := by omega
    simp [memGet, hm, hne]
  · intro e c l x now' hm hle
    have hne : ¬ now' < e := by omega
    simp [fileGet, hm, hne]

/-- C1 witness: with sliding TTL enabled and timeout 3 hours, storing `"v"`
under `"k"` with TTL 5 at time 0 makes `get` at time 0 return `"v"`. -/
theorem C1_get_visibility_witness :
    (memGet ⟨true, 3⟩ 0 (memSetWithTTL 0 [] "k" 5 "v") "k").1 = some "v" :=
  (C1_get_visibility ⟨true, 3⟩ 0 5 [] [] "d" "k" "v" (by decide)).2.2.1

/-- C5: an existing but expired entry makes `get` return absent and remove
the entry (map entry / backing file), so it is gone after the call. -/
theorem C5_expired_get_removes (cfg : Config) (now : Nat) (s : MemStore) (fs : FS)
    (dir key : String) :
    (∀ (v : String) (e : Nat), memFind s key = some (v, e) → e ≤ now →
      memGet cfg now s key = (none, memErase s key)
      ∧ memFind (memGet cfg now s key).2 key = none)
    ∧ (∀ (val : Option String) (eo c l : Option Nat) (x : Bool),
        fsFind fs (fileStorageGetFilePath dir key) = some (.record val eo c l x) →
        eo.getD 0 ≤ now →
        fileGet cfg now false false fs dir key
          = (.ok none, fsErase fs (fileStorageGetFilePath dir key))
        ∧ fsFind (fileGet cfg now false false fs dir key).2
            (fileStorageGetFilePath dir key) = none) := by
  constructor
  · intro v e hm hle
    have hne : ¬ now < e := by omega
    refine ⟨by simp [memGet, hm, hne], ?_⟩
    simp [memGet, hm, hne, memFind_memErase]
  · intro val eo c l x hm hle
    have hne : ¬ now < eo.getD 0 := by omega
    refine ⟨by simp [fileGet, hm, hne], ?_⟩
    simp [fileGet, hm, hne, fsFind_fsErase]

/-- C5 witness: at time 10 an entry that expired at time 5 is removed by
`get` on both backends. -/
theorem C5_expired_get_removes_witness :
    (memGet ⟨true, 3⟩ 10 [("k", "v", 5)] "k" = (none, [])
      ∧ memFind (memGet ⟨true, 3⟩ 10 [("k", "v", 5)] "k").2 "k" = none)
    ∧ (fileGet ⟨true, 3⟩ 10 false false
          [("d/k.json", FileData.record (some "v") (some 5) (some 0) none false)] "d" "k"
        = (.ok none, [])
      ∧ fsFind (fileGet ⟨true, 3⟩ 10 false false
          [("d/k.json", FileData.record (some "v") (some 5) (some 0) none false)] "d" "k").2
          "d/k.json" = none) := by
  have h := C5_expired_get_removes ⟨true, 3⟩ 10 [("k", "v", 5)]
      [("d/k.json", FileData.record (some "v") (some 5) (some 0) none false)] "d" "k"
  have h1 := h.1 "v" 5 (by decide) (by decide)
  have h2 := h.2 (some "v") (some 5) (some 0) none false (by decide) (by decide)
  exact ⟨⟨by simpa using h1.1, h1.2⟩, ⟨by simpa using h2.1, by simpa using h2.2⟩⟩

/-- C6: an `OSError` during the locked write of `set_with_ttl` propagates to
the caller, while an `OSError` during the locked read of `get` is swallowed:
`get` returns absent instead of raising. -/
theorem C6_io_failure_policy (cfg : Config) (now ttl : Nat) (fs : FS)
    (dir key v : String) :
    fileSetWithTTL now true fs dir key ttl v = .error ()
    ∧ (fileGet cfg now true false fs dir key).1 = .ok none := by
  refine ⟨rfl, ?_⟩
  cases hm : fsFind fs (fileStorageGetFilePath dir key) <;> simp [fileGet, hm]

/-- C10: with sliding TTL enabled, when the rewrite that extends the expiry
inside `FileStorage.get` raises an `OSError`, the outer handler deletes the
key's backing file and `get` returns absent — the valid unexpired entry is
destroyed. -/
theorem C10_sliding_rewrite_failure_destroys (cfg : Config) (now e : Nat)
    (fs : FS) (dir key v : String) (c l : Option Nat) (x : Bool)
    (hs : cfg.slidingTTL = true)
    (hf : fsFind fs (fileStorageGetFilePath dir key)
        = some (.record (some v) (some e) c l x))
    (he : now < e) :
    fileGet cfg now false true fs dir key
      = (.ok none, fsErase fs (fileStorageGetFilePath dir key))
    ∧ fsFind (fileGet cfg now false true fs dir key).2
        (fileStorageGetFilePath dir key) = none := by
  refine ⟨by simp [fileGet, hf, hs, he], ?_⟩
  simp [fileGet, hf, hs, he, fsFind_fsErase]

/-- C10 witness: a valid entry (expiry 10, read at time 0) is deleted when
the sliding-TTL rewrite fails. -/
theorem C10_sliding_rewrite_failure_destroys_witness :
    fileGet ⟨true, 3⟩ 0 false true
        [("d/k.json", FileData.record (some "v") (some 10) (some 0) none false)] "d" "k"
      = (.ok none, [])
    ∧ fsFind (fileGet ⟨true, 3⟩ 0 false true
        [("d/k.json", FileData.record (some "v") (some 10) (some 0) none false)] "d" "k").2
        "d/k.json" = none := by
  have h := C10_sliding_rewrite_failure_destroys ⟨true, 3⟩ 0 10
      [("d/k.json", FileData.record (some "v") (some 10) (some 0) none false)] "d" "k" "v"
      (some 0) none false rfl (by decide) (by decide)
  exact ⟨by simpa using h.1, by simpa using h.2⟩

/-- C3: with sliding TTL enabled, a read of an unexpired entry resets its
expiry to `now + timeoutHours*3600` (the configured TTL, not the entry's
original TTL) on both backends; with it disabled, a read of an unexpired
entry leaves the store unchanged, and any entry surviving any read keeps its
previous value and expiry. -/
theorem C3_sliding_ttl (cfg : Config) (now e : Nat) (s : MemStore) (fs : FS)
    (dir key v : String) (val : Option String) (c l : Option Nat) (x : Bool) :
    (cfg.slidingTTL = true → memFind s key = some (v, e) → now < e →
      memGet cfg now s key
        = (some v, memSet s key (v, now + cfg.timeoutHours * 3600)))
    ∧ (cfg.slidingTTL = true →
        fsFind fs (fileStorageGetFilePath dir key)
          = some (.record val (some e) c l x) → now < e →
        fileGet cfg now false false fs dir key
          = (.ok val, fsSet fs (fileStorageGetFilePath dir key)
              (.record val (some (now + cfg.timeoutHours * 3600)) c (some now) x)))
    ∧ (cfg.slidingTTL = false → memFind s key = some (v, e) → now < e →
        memGet cfg now s key = (some v, s))
    ∧ (cfg.slidingTTL = false →
        fsFind fs (fileStorageGetFilePath dir key)
          = some (.record val (some e) c l x) → now < e →
        fileGet cfg now false false fs dir key = (.ok val, fs))
    ∧ (cfg.slidingTTL = false → ∀ (k' v' : String) (e' : Nat),
        memFind (memGet cfg now s key).2 k' = some (v', e') →
        memFind s k' = some (v', e'))
    ∧ (cfg.slidingTTL = false → ∀ (p : String) (d : FileData),
        fsFind (fileGet cfg now false false fs dir key).2 p = some d →
        fsFind fs p = some d) := by
  refine ⟨?_, ?_, ?_, ?_, ?_, ?_⟩
  · intro hs hm hne; simp [memGet, hm, hne, hs]
  · intro hs hm hne; simp [fileGet, hm, hne, hs]
  · intro hs hm hne; simp [memGet, hm, hne, hs]
  · intro hs hm hne; simp [fileGet, hm, hne, hs]
  · intro hs k' v' e' hf
    cases hm : memFind s key with
    | none => simpa [memGet, hm] using hf
    | some ve =>
      obtain ⟨v0, e0⟩ := ve
      by_cases hne : now < e0
      · simpa [memGet, hm, hne, hs] using hf
      · simp [memGet, hm, hne] at hf
        rw [memFind_memErase] at hf
        by_cases hk : k' = key
        · simp [hk] at hf
        · simpa [hk] using hf
  · intro hs p d hf
    cases hm : fsFind fs (fileStorageGetFilePath dir key) with
    | none => simpa [fileGet, hm] using hf
    | some fd =>
      cases fd with
      | corrupt =>
        simp only [fileGet, hm] at hf
        simp only [Bool.false_eq_true, if_false, ite_false] at hf
        rw [fsFind_fsErase] at hf
        by_cases hp : p = fileStorageGetFilePath dir key
        · simp [hp] at hf
        · simpa [hp] using hf
      | null => simpa [fileGet, hm] using hf
      | nonObject t0 => simpa [fileGet, hm] using hf
      | record v0 e0 c0 l0 x0 =>
        by_cases hne : now < e0.getD 0
        · simpa [fileGet, hm, hne, hs] using hf
        · simp only [fileGet, hm] at hf
          simp only [Bool.false_eq_true, if_false, ite_false, if_neg hne] at hf
          rw [fsFind_fsErase] at hf
          by_cases hp : p = fileStorageGetFilePath dir key
          · simp [hp] at hf
          · simpa [hp] using hf

/-- C3 witness: concrete reads at time 0 of an entry expiring at 10,
with sliding TTL enabled (timeout 3 hours) and disabled. -/
theorem C3_sliding_ttl_witness :
    memGet ⟨true, 3⟩ 0 [("k", "v", 10)] "k"
      = (some "v", memSet [("k", "v", 10)] "k" ("v", 0 + 3 * 3600))
    ∧ fileGet ⟨true, 3⟩ 0 false false
        [("d/k.json", FileData.record (some "v") (some 10) (some 0) none false)] "d" "k"
      = (.ok (some "v"),
          fsSet [("d/k.json", FileData.record (some "v") (some 10) (some 0) none false)]
          (fileStorageGetFilePath "d" "k")
          (FileData.record (some "v") (some (0 + 3 * 3600)) (some 0) (some 0) false))
    ∧ memGet ⟨false, 3⟩ 0 [("k", "v", 10)] "k" = (some "v", [("k", "v", 10)])
    ∧ fileGet ⟨false, 3⟩ 0 false false
        [("d/k.json", FileData.record (some "v") (some 10) (some 0) none false)] "d" "k"
      = (.ok (some "v"),
          [("d/k.json", FileData.record (some "v") (some 10) (some 0) none false)])
    ∧ memFind [("k", "v", 10)] "k" = some ("v", 10)
    ∧ fsFind [("d/k.json", FileData.record (some "v") (some 10) (some 0) none false)]
        "d/k.json" = some (FileData.record (some "v") (some 10) (some 0) none false) := by
  have hT := C3_sliding_ttl ⟨true, 3⟩ 0 10 [("k", "v", 10)]
      [("d/k.json", FileData.record (some "v") (some 10) (some 0) none false)]
      "d" "k" "v" (some "v") (some 0) none false
  have hF := C3_sliding_ttl ⟨false, 3⟩ 0 10 [("k", "v", 10)]
      [("d/k.json", FileData.record (some "v") (some 10) (some 0) none false)]
      "d" "k" "v" (some "v") (some 0) none false
  refine ⟨hT.1 rfl (by decide) (by decide), hT.2.1 rfl (by decide) (by decide),
    hF.2.2.1 rfl (by decide) (by decide), hF.2.2.2.1 rfl (by decide) (by decide),
    hF.2.2.2.2.1 rfl "k" "v" 10 (by decide), hF.2.2.2.2.2 rfl "d/k.json" _ (by decide)⟩

/-- C4: the sweep removes every entry whose expiry has passed and keeps every
unexpired entry intact and still readable with its original value; an entry
the sweep's read shows unexpired is never removed. -/
theorem C4_sweep_correct (cfg : Config) (now : Nat) (s : MemStore) (fs : FS)
    (dir key : String) :
    (∀ (k v : String) (e : Nat), (k, v, e) ∈ s → e < now →
      (k, v, e) ∉ memCleanupExpired now s)
    ∧ (∀ (k v : String) (e : Nat), memFind s k = some (v, e) → now < e →
        memFind (memCleanupExpired now s) k = some (v, e)
        ∧ (memGet cfg now (memCleanupExpired now s) k).1 = some v)
    ∧ (∀ (p : String) (val : Option String) (e : Nat) (c l : Option Nat) (x : Bool),
        (p, FileData.record val (some e) c l x) ∈ fs →
        strEndsWith p ".json" = true → e < now →
        (p, FileData.record val (some e) c l x) ∉ fileCleanupExpired now fs)
    ∧ (∀ (p : String), (p, FileData.corrupt) ∈ fs → strEndsWith p ".json" = true →
        (p, FileData.corrupt) ∉ fileCleanupExpired now fs)
    ∧ (∀ (val : Option String) (e : Nat) (c l : Option Nat) (x : Bool),
        fsFind fs (fileStorageGetFilePath dir key)
          = some (.record val (some e) c l x) → now < e →
        fsFind (fileCleanupExpired now fs) (fileStorageGetFilePath dir key)
          = some (.record val (some e) c l x))
    ∧ (∀ (v : String) (e : Nat) (c l : Option Nat) (x : Bool),
        fsFind fs (fileStorageGetFilePath dir key)
          = some (.record (some v) (some e) c l x) → now < e →
        (fileGet cfg now false false (fileCleanupExpired now fs) dir key).1
          = .ok (some v)) := by
  refine ⟨?_, ?_, ?_, ?_, ?_, ?_⟩
  · intro k v e hmem he
    exact memCleanup_not_mem now s k v e he
  · intro k v e hm hne
    have hfind := memFind_memCleanup now s k v e hm (by omega)
    refine ⟨hfind, ?_⟩
    cases hs : cfg.slidingTTL <;> simp [memGet, hfind, hne, hs]
  · intro p val e c l x hmem hj he
    exact fileCleanup_not_mem now fs p _ hj (by simp [fileKeep]; omega)
  · intro p hmem hj
    exact fileCleanup_not_mem now fs p _ hj (by simp [fileKeep])
  · intro val e c l x hm hne
    exact fsFind_fileCleanup now fs _ _ hm (by simp [fileKeep]; omega)
  · intro v e c l x hm hne
    have hfind := fsFind_fileCleanup now fs _ _ hm (by simp [fileKeep]; omega)
    cases hs : cfg.slidingTTL <;> simp [fileGet, hfind, hne, hs]

/-- C4 witness: at time 10, sweeping a store holding an entry expired at 1
and an entry expiring at 100 removes the first and keeps the second readable,
on both backends. -/
theorem C4_sweep_correct_witness :
    (("a", "x", (1 : Nat)) ∉ memCleanupExpired 10 [("a", "x", 1), ("b", "y", 100)])
    ∧ memFind (memCleanupExpired 10 [("a", "x", 1), ("b", "y", 100)]) "b"
        = some ("y", 100)
    ∧ (memGet ⟨true, 3⟩ 10 (memCleanupExpired 10 [("a", "x", 1), ("b", "y", 100)]) "b").1
        = some "y"
    ∧ (("d/a.json", FileData.record (some "x") (some 1) (some 0) none false) ∉
        fileCleanupExpired 10
          [("d/a.json", FileData.record (some "x") (some 1) (some 0) none false),
           ("d/b.json", FileData.record (some "y") (some 100) (some 0) none false)])
    ∧ fsFind (fileCleanupExpired 10
          [("d/a.json", FileData.record (some "x") (some 1) (some 0) none false),
           ("d/b.json", FileData.record (some "y") (some 100) (some 0) none false)])
        (fileStorageGetFilePath "d" "b")
        = some (FileData.record (some "y") (some 100) (some 0) none false)
    ∧ (fileGet ⟨true, 3⟩ 10 false false
        (fileCleanupExpired 10
          [("d/a.json", FileData.record (some "x") (some 1) (some 0) none false),
           ("d/b.json", FileData.record (some "y") (some 100) (some 0) none false)])
        "d" "b").1 = .ok (some "y") := by
  have h := C4_sweep_correct ⟨true, 3⟩ 10 [("a", "x", 1), ("b", "y", 100)]
      [("d/a.json", FileData.record (some "x") (some 1) (some 0) none false),
       ("d/b.json", FileData.record (some "y") (some 100) (some 0) none false)]
      "d" "b"
  have h2 := h.2.1 "b" "y" 100 (by decide) (by decide)
  refine ⟨h.1 "a" "x" 1 (by decide) (by decide), h2.1, h2.2,
    h.2.2.1 "d/a.json" (some "x") 1 (some 0) none false
      (by decide) (by decide) (by decide),
    h.2.2.2.2.1 (some "y") 100 (some 0) none false (by decide) (by decide),
    h.2.2.2.2.2 "y" 100 (some 0) none false (by decide) (by decide)⟩

/-- The sanitizing transform acts pointwise: each character that is `/` or
`:` becomes `_`, all others are untouched. -/
theorem sanitize_chars (key : String) :
    (replaceChar (replaceChar key '/' '_') ':' '_').data
      = key.data.map (fun ch => if ch = '/' ∨ ch = ':' then '_' else ch) := by
  show (key.data.map _).map _ = _
  induction key.data with
  | nil => rfl
  | cons ch t ih =>
    simp only [List.map_cons, List.map_map] at ih ⊢
    by_cases h1 : ch = '/'
    · simp [h1, ih]
    · by_cases h2 : ch = ':'
      · simp [h1, h2, ih]
      · simp [h1, h2, ih]

/-- C7 counterexample: writing key `"k"` at time 0 (TTL 10) and again at
time 10 leaves `created_at = 10` — the time of the second write, not of the
first write as the claim requires. -/
theorem C7_counterexample :
    fileSetWithTTL 0 false [] "d" "k" 10 "v1"
      = .ok [("d/k.json", FileData.record (some "v1") (some 10) (some 0) none false)]
    ∧ fileSetWithTTL 10 false
        [("d/k.json", FileData.record (some "v1") (some 10) (some 0) none false)]
        "d" "k" 10 "v2"
      = .ok [("d/k.json", FileData.record (some "v2") (some 20) (some 10) none false)]
    ∧ (10 : Nat) ≠ 0 := by decide

/-- C7 amended: `set_with_ttl` rewrites the whole file, so after a write at
time `now` the persisted `created_at` equals `now` — the time of the most
recent write — regardless of any earlier entry for the key. -/
theorem C7_created_at_last_write (now ttl : Nat) (fs fs' : FS)
    (dir key v : String)
    (h : fileSetWithTTL now false fs dir key ttl v = .ok fs') :
    fsFind fs' (fileStorageGetFilePath dir key)
      = some (.record (some v) (some (now + ttl)) (some now) none false) := by
  simp only [fileSetWithTTL, Bool.false_eq_true, if_false, ite_false] at h
  injection h with hfs
  subst hfs
  exact fsFind_fsSet_self fs _ _

/-- C7 amended witness: the second write of `"k"` at time 10 leaves
`created_at = 10`. -/
theorem C7_created_at_last_write_witness :
    fsFind [("d/k.json", FileData.record (some "v2") (some 20) (some 10) none false)]
        (fileStorageGetFilePath "d" "k")
      = some (.record (some "v2") (some 20) (some 10) none false) := by
  have h := C7_created_at_last_write 10 10
      [("d/k.json", FileData.record (some "v1") (some 10) (some 0) none false)]
      [("d/k.json", FileData.record (some "v2") (some 20) (some 10) none false)]
      "d" "k" "v2" (by decide)
  simpa using h

/-- C8: the key→path map is a deterministic function of the key (under the
configured directory): `<dir>/<sanitizedKey>.json` with every `/` and `:` of
the key replaced by `_`; two keys with equal sanitizations address the same
entry (a value stored under one is returned by `get` of the other). -/
theorem C8_key_path_mapping (cfg : Config) (now ttl : Nat) (fs fs' : FS)
    (dir key k1 k2 v : String)
    (hsan : replaceChar (replaceChar k1 '/' '_') ':' '_'
          = replaceChar (replaceChar k2 '/' '_') ':' '_')
    (httl : 0 < ttl)
    (hset : fileSetWithTTL now false fs dir k1 ttl v = .ok fs') :
    fileStorageGetFilePath dir key
      = dir ++ "/" ++ replaceChar (replaceChar key '/' '_') ':' '_' ++ ".json"
    ∧ (replaceChar (replaceChar key '/' '_') ':' '_').data
      = key.data.map (fun ch => if ch = '/' ∨ ch = ':' then '_' else ch)
    ∧ fileStorageGetFilePath dir k1 = fileStorageGetFilePath dir k2
    ∧ (fileGet cfg now false false fs' dir k2).1 = .ok (some v) := by
  have hpath : fileStorageGetFilePath dir k1 = fileStorageGetFilePath dir k2 := by
    simp only [fileStorageGetFilePath, hsan]
  refine ⟨rfl, sanitize_chars key, hpath, ?_⟩
  simp only [fileSetWithTTL, Bool.false_eq_true, if_false, ite_false] at hset
  injection hset with hfs
  subst hfs
  have hfind : fsFind (fsSet fs (fileStorageGetFilePath dir k1)
      (FileData.record (some v) (some (now + ttl)) (some now) none false))
      (fileStorageGetFilePath dir k2)
      = some (FileData.record (some v) (some (now + ttl)) (some now) none false) := by
    rw [← hpath]; exact fsFind_fsSet_self fs _ _
  have h : now < now + ttl := by omega
  cases hs : cfg.slidingTTL <;> simp [fileGet, hfind, h, hs]

/-- C8 witness: `"thread:1/a"` and `"thread:1:a"` both sanitize to
`"thread_1_a"`, map to `"d/thread_1_a.json"`, and a value stored under the
first is returned by `get` of the second. -/
theorem C8_key_path_mapping_witness :
    fileStorageGetFilePath "d" "thread:1/a"
      = "d" ++ "/" ++ replaceChar (replaceChar "thread:1/a" '/' '_') ':' '_' ++ ".json"
    ∧ (replaceChar (replaceChar "thread:1/a" '/' '_') ':' '_').data
      = "thread:1/a".data.map (fun ch => if ch = '/' ∨ ch = ':' then '_' else ch)
    ∧ fileStorageGetFilePath "d" "thread:1/a" = fileStorageGetFilePath "d" "thread:1:a"
    ∧ (fileGet ⟨true, 3⟩ 0 false false
        [("d/thread_1_a.json", FileData.record (some "v") (some 5) (some 0) none false)]
        "d" "thread:1:a").1 = .ok (some "v") := by
  have h := C8_key_path_mapping ⟨true, 3⟩ 0 5 []
      [("d/thread_1_a.json", FileData.record (some "v") (some 5) (some 0) none false)]
      "d" "thread:1/a" "thread:1/a" "thread:1:a" "v"
      (by decide) (by decide) (by decide)
  exact h

/-- C9: the backend selector maps `"memory"` to the in-memory backend and
`"file"`, any unrecognized value, or an unset variable to the file backend
without failing; the singleton is created at most once per process and every
subsequent caller receives the same instance. -/
theorem C9_backend_selection (envVal env1 env2 : Option String)
    (cached : Option Backend) (b : Backend)
    (h : strToLower (envVal.getD "file") ≠ "memory") :
    selectBackend (some "memory") = .memory
    ∧ selectBackend (some "file") = .file
    ∧ selectBackend none = .file
    ∧ selectBackend envVal = .file
    ∧ getStorageBackend (some b) env1 = (b, some b)
    ∧ (getStorageBackend (getStorageBackend cached env1).2 env2).1
        = (getStorageBackend cached env1).1 := by
  refine ⟨by decide, by decide, by decide, ?_, rfl, ?_⟩
  · by_cases h2 : strToLower (envVal.getD "file") = "file" <;>
      simp [selectBackend, h, h2]
  · cases cached <;> rfl

/-- C9 witness: `"BOGUS"` is unrecognized and selects the file backend; a
first call with an empty cache fixes the instance for the second call. -/
theorem C9_backend_selection_witness :
    selectBackend (some "memory") = .memory
    ∧ selectBackend (some "file") = .file
    ∧ selectBackend none = .file
    ∧ selectBackend (some "BOGUS") = .file
    ∧ getStorageBackend (some .memory) (some "BOGUS") = (.memory, some .memory)
    ∧ (getStorageBackend (getStorageBackend none (some "BOGUS")).2 (some "memory")).1
        = (getStorageBackend none (some "BOGUS")).1 :=
  C9_backend_selection (some "BOGUS") (some "BOGUS") (some "memory") none .memory
    (by decide)

end ZenStorage
